import Mathlib

/-!
Tunnel engine: the tunnel loop and the client reconnection loop

A shallow embedding of `src/engine/tun_source.go` (`NewTunLoop`, `TunLoop.Connect`,
`TunLoop.Run`, `Tun.ClientWrapper`) and of `src/engine/default_network.go`
(`DefaultNetwork.ID`).

Conventions.

* `uint64` values are natural numbers; every operation that can leave the range
  is reduced modulo `2^64` explicitly.  `time.Duration` is an `int64` number of
  nanoseconds, modelled as an integer wrapped into the signed 64-bit range.
* A Go string is the list of its bytes.
* Objects that the loop only holds by reference (the channel pipes it created,
  the delivery channel `stream`, the shared `*Router`, the framed transport
  `tunnel`) are fields of the one state record `TunLoop`; a channel pipe is
  referred to by its index in `heap`.
* Results that the environment decides (does `WritePackage` fail, does the pipe
  `Write` fail, does `ReadPackage` fail, did the link run for 20 minutes) are
  explicit parameters of the step functions.
* The mutexes and the atomicity of `AddUint64` are not modelled: the functions
  below describe calls that run one after the other.
-/

namespace Engine

/-! ## Data model -/

/-- A byte. -/
abbrev Byte := Fin 256

/-- A printed socket address, `conn.LocalAddr().String()`: a Go string, i.e. its bytes. -/
abbrev Addr := List Byte

/-- The dial target carried by a `Connect` frame. -/
structure Location where
  Network : String
  Host : String
  Port : Nat
deriving DecidableEq, Repr

/-- The `Network` interface has two implementations: `DefaultNetwork`, and the
tunnel network `NewTunNetwork(loop)` bound to one tunnel loop, recorded here by
that loop's `UniID`. -/
inductive Network where
  | default
  | tun (uniID : Nat)
deriving DecidableEq, Repr

/-- The method `ID` of a network. `DefaultNetwork.ID` returns 0
(`default_network.go`).
Modelled from the spec: the tunnel network's `ID` (its source is not under src)
is the owner identity of the loop it is bound to, its `UniID`. -/
def Network.ID : Network → Nat
  | .default => 0
  | .tun u => u

/-- A router entry. `Domains` is a Go slice, which may be `nil` (`none`) or a
slice of some length, zero included (`some []`); `network` is an interface
value, `nil` in an item that came over the wire. -/
structure RouterItem where
  Domains : Option (List String)
  network : Option Network
deriving DecidableEq, Repr

/-- The owner identity of a router entry: the `ID()` of its network. -/
def RouterItem.OwnerID (it : RouterItem) : Option Nat :=
  it.network.map Network.ID

/-- The value of `pkg.Command`; the `switch` of `TunLoop.Run` has four cases and
no default, so every other value is `Other`. -/
inductive PkgCommand where
  | Connect
  | Data
  | Close
  | Register
  | Other (code : Nat)
deriving DecidableEq, Repr

/-- A frame. `Loc` and `Router` are pointers, `none` when nil. -/
structure Package where
  Command : PkgCommand
  Id : Nat
  Loc : Option Location
  Data : List Byte
  Router : Option RouterItem
deriving DecidableEq, Repr

/-- Modelled from the spec: the channel pipe made by `NewChannelConn` (§4.2; its
source is not under src), as far as the tunnel loop acts on it: the payloads
that a successful `Write` put into it, and whether `Close` was called on it. -/
structure ChannelConn where
  written : List (List Byte)
  closed : Bool
deriving DecidableEq, Repr

/-- A new, empty and open channel pipe: `NewChannelConn()`. -/
def NewChannelConn : ChannelConn := ⟨[], false⟩

/-- The call `ch.Close()`. -/
def ChannelConn.Close (c : ChannelConn) : ChannelConn := { c with closed := true }

/-- The call `to.Write(data)`; `ok` says whether it returned no error. -/
def ChannelConn.Write (data : List Byte) (ok : Bool) (c : ChannelConn) : ChannelConn :=
  if ok then { c with written := c.written ++ [data] } else c

/-- A write handle on the framed transport, `t.tunnel.Clone()` followed by
`SetID`: the stream ID it tags its frames with. -/
structure TunConn where
  id : Nat
deriving DecidableEq, Repr

/-- The connection `NewPipeConn(ch, tu)`: `ch` is the reference to its channel
pipe, `tu` its framed writer. -/
structure PipeConn where
  ch : Nat
  tu : TunConn
deriving DecidableEq, Repr

/-- What is delivered on the `stream` channel. -/
structure FromConn where
  Loc : Location
  Conn : PipeConn
deriving DecidableEq, Repr

/-! ## Maps and the heap of channel pipes -/

/-- A Go `map[uint64]V` as an association list without duplicate keys. -/
abbrev Map (V : Type) := List (Nat × V)

/-- The lookup `v, present := m[k]`. -/
def Map.lookup {V : Type} (m : Map V) (k : Nat) : Option V :=
  match m with
  | [] => none
  | (k1, v) :: rest => if k1 = k then some v else Map.lookup rest k

/-- The statement `delete(m, k)`. -/
def Map.delete {V : Type} (m : Map V) (k : Nat) : Map V :=
  m.filter (fun e => e.1 != k)

/-- The assignment `m[k] = v`. -/
def Map.insert {V : Type} (m : Map V) (k : Nat) (v : V) : Map V :=
  (k, v) :: Map.delete m k

/-- Apply `f` to the object that reference `p` points to. -/
def heapUpdate (f : ChannelConn → ChannelConn) : List ChannelConn → Nat → List ChannelConn
  | [], _ => []
  | c :: cs, 0 => f c :: cs
  | c :: cs, p + 1 => c :: heapUpdate f cs p

/-! ## The tunnel loop -/

/-- The state of a tunnel loop together with the objects it refers to.
`id`, `diff`, `ctx`, `UniID` are the fields of the Go struct; `heap` holds the
channel pipes created so far, `stream` the values sent on the delivery channel,
`router` the entries of the shared router, `sent` the frames that
`tunnel.WritePackage` wrote and `tunnelClosed` whether `tunnel.Close` was
called. -/
structure TunLoop where
  id : Nat
  diff : Nat
  ctx : Map Nat
  UniID : Nat
  heap : List ChannelConn
  stream : List FromConn
  router : List RouterItem
  sent : List Package
  tunnelClosed : Bool
deriving DecidableEq, Repr

/-- The loop of `NewTunLoop` over two strings of equal length: the byte of `s1`
at the first index where the strings differ; `loop.diff` keeps its zero value
when there is none. -/
def firstDiff : Addr → Addr → Nat
  | a :: s1, b :: s2 => if a ≠ b then a.val else firstDiff s1 s2
  | _, _ => 0

/-- The value of `loop.diff` before the shift (`NewTunLoop`, lines 192-205). -/
def addrDiff (s1 s2 : Addr) : Nat :=
  if s1.length > s2.length then 0
  else if h : s1.length < s2.length then (s2.get ⟨s1.length, h⟩).val
  else firstDiff s1 s2

/-- The statement `loop.diff = loop.diff << 32` on a `uint64`. -/
def shl32 (x : Nat) : Nat := (x <<< 32) % 2 ^ 64

/-- The function `NewTunLoop(conn, stream, router)`: `s1` and `s2` are the local
and the remote address of `conn`, `uniID` is what `EngineID()` returns. -/
def NewTunLoop (s1 s2 : Addr) (stream : List FromConn) (router : List RouterItem)
    (uniID : Nat) : TunLoop :=
  { id := shl32 (addrDiff s1 s2)
    diff := shl32 (addrDiff s1 s2)
    ctx := []
    UniID := uniID
    heap := []
    stream := stream
    router := router
    sent := []
    tunnelClosed := false }

/-- The call `atomic.AddUint64(&x, delta)`: the new value, modulo `2^64`. -/
def AddUint64 (x delta : Nat) : Nat := (x + delta) % 2 ^ 64

/-- Lines 220-228 of `TunLoop.Connect`: the new value of `t.id` and `newID`. -/
def allocID (t : TunLoop) : TunLoop × Nat :=
  let t1 := { t with id := AddUint64 t.id 1 }
  let newID := t1.id
  let (t2, newID) :=
    if newID = 0 then
      ({ t1 with id := AddUint64 t1.id 1 }, AddUint64 t1.id 1)
    else (t1, newID)
  if (newID &&& 0xFFFFFFFF) > 0xFFFFFFF then
    ({ t2 with id := AddUint64 t2.diff 1 }, AddUint64 t2.diff 1)
  else (t2, newID)

/-- The method `TunLoop.Connect(loc)`; `writeOk` says whether `WritePackage`
returned no error. The result is the connection, or `none` for `(nil, err)`. -/
def Connect (t : TunLoop) (loc : Location) (writeOk : Bool) : TunLoop × Option PipeConn :=
  let (t, newID) := allocID t
  let ch := t.heap.length
  let t := { t with heap := t.heap ++ [NewChannelConn] }
  let tu : TunConn := ⟨newID⟩
  let pkg : Package := ⟨.Connect, newID, some loc, [], none⟩
  if writeOk then
    let t := { t with sent := t.sent ++ [pkg] }
    let t := { t with ctx := Map.insert t.ctx newID ch }
    (t, some ⟨ch, tu⟩)
  else
    ({ t with tunnelClosed := true }, none)

/-- The stream IDs (`newID`) of successive calls of `Connect`, one call for
every element of the list (its location and the outcome of its frame write). -/
def connectIDs (t : TunLoop) : List (Location × Bool) → List Nat
  | [] => []
  | (loc, ok) :: rest => (allocID t).2 :: connectIDs (Connect t loc ok).1 rest

/-! ## The router -/

/-- Modelled from the spec: `Router.AddRouter(item)` (its source is not under
src) appends the item to the router (§4.5). -/
def AddRouter (router : List RouterItem) (item : RouterItem) : List RouterItem :=
  router ++ [item]

/-- Modelled from the spec: `Router.RemoveRouter(ownerId)` (its source is not
under src) deletes every entry with that owner (§4.5). -/
def RemoveRouter (router : List RouterItem) (ownerId : Nat) : List RouterItem :=
  router.filter (fun it => it.OwnerID != some ownerId)

/-! ## The read loop -/

/-- The body of the loop of `TunLoop.Run` for a frame that `ReadPackage` read
without error; `writeOk` says whether the pipe `Write` of a `Data` frame
returned no error. -/
def handle (t : TunLoop) (pkg : Package) (writeOk : Bool) : TunLoop :=
  match pkg.Command with
  | .Connect =>
    match pkg.Loc with
    | none => t
    | some loc =>
      let ch := t.heap.length
      let t := { t with heap := t.heap ++ [NewChannelConn] }
      let tu : TunConn := ⟨pkg.Id⟩
      let t := { t with ctx := Map.insert t.ctx pkg.Id ch }
      { t with stream := t.stream ++ [⟨loc, ⟨ch, tu⟩⟩] }
  | .Data =>
    match Map.lookup t.ctx pkg.Id with
    | none => t
    | some dst =>
      let t := { t with heap := heapUpdate (ChannelConn.Write pkg.Data writeOk) t.heap dst }
      if writeOk then t else { t with ctx := Map.delete t.ctx pkg.Id }
  | .Register =>
    match pkg.Router with
    | none => t
    | some r =>
      match r.Domains with
      | none => t
      | some domains =>
        { t with router := AddRouter t.router ⟨some domains, some (.tun t.UniID)⟩ }
  | .Close =>
    match Map.lookup t.ctx pkg.Id with
    | none => t
    | some ch =>
      let t := { t with heap := heapUpdate ChannelConn.Close t.heap ch }
      { t with ctx := Map.delete t.ctx pkg.Id }
  | .Other _ => t

/-- What one call of `ReadPackage` gives: a frame (with the outcome of the pipe
write it may lead to), or an error. -/
inductive ReadResult where
  | pkg (p : Package) (writeOk : Bool)
  | err
deriving DecidableEq, Repr

/-- The method `TunLoop.Run` on the reads that the transport delivers. The
second component says whether `Run` has returned: it has after a read error,
and it has not when the reads are used up, where the loop waits in
`ReadPackage`. -/
def Run (t : TunLoop) : List ReadResult → TunLoop × Bool
  | [] => (t, false)
  | .err :: _ => ({ t with router := RemoveRouter t.router t.UniID }, true)
  | .pkg p ok :: rest => Run (handle t p ok) rest

/-- The frames of a list handled one after the other. -/
def handleAll (t : TunLoop) : List (Package × Bool) → TunLoop
  | [] => t
  | (p, ok) :: rest => handleAll (handle t p ok) rest

/-- The reads of a list of frames, none of them an error. -/
def reads (frames : List (Package × Bool)) : List ReadResult :=
  frames.map (fun f => ReadResult.pkg f.1 f.2)

/-- What happens to a live tunnel loop: a local call of `Connect`, or an
inbound frame handled by `Run`. -/
inductive Event where
  | connect (loc : Location) (writeOk : Bool)
  | frame (p : Package) (writeOk : Bool)
deriving DecidableEq, Repr

/-- The state after a sequence of events. -/
def exec (t : TunLoop) : List Event → TunLoop
  | [] => t
  | .connect loc ok :: rest => exec (Connect t loc ok).1 rest
  | .frame p ok :: rest => exec (handle t p ok) rest

/-- The number of `Connect` calls among the events. -/
def connectCount : List Event → Nat
  | [] => 0
  | .connect _ _ :: rest => connectCount rest + 1
  | .frame _ _ :: rest => connectCount rest

/-- The event is not an inbound `Connect` frame whose `Id` lies in the range
`base+1 .. base+0x0FFFFFFF` that the loop allocates from. -/
def Event.foreign (base : Nat) : Event → Bool
  | .connect _ _ => true
  | .frame p _ =>
    !(p.Command == PkgCommand.Connect) || decide (p.Id ≤ base) || decide (base + 0xFFFFFFF < p.Id)

/-! ## The client reconnection loop -/

/-- The constant `time.Second`, in nanoseconds. -/
def Second : Int := 1000000000

/-- Arithmetic on `int64` (`time.Duration`): the result wrapped into the
range `-2^63 .. 2^63 - 1`. -/
def wrapInt64 (x : Int) : Int := (x + 2 ^ 63) % 2 ^ 64 - 2 ^ 63

/-- How one round of the loop of `ClientWrapper` ends: the dial fails, or the
link is established and `loop.Run()` returns before, or not before, the 20
minutes of the test `time.Since(lastConnect).Minutes() < 20`. -/
inductive Attempt where
  | dialFail
  | ranShort
  | ranLong
deriving DecidableEq, Repr

/-- The loop of `Tun.ClientWrapper` from a value of `duration`: the arguments
of the successive calls of `time.Sleep`, in nanoseconds. -/
def clientLoop (duration : Int) : List Attempt → List Int
  | [] => []
  | .dialFail :: rest =>
    let duration := wrapInt64 (duration * 2)
    duration :: clientLoop duration rest
  | .ranShort :: rest =>
    let duration := wrapInt64 (duration * 2)
    duration :: clientLoop duration rest
  | .ranLong :: rest => clientLoop Second rest

/-- The method `Tun.ClientWrapper`: `duration` starts as `time.Second`. -/
def ClientWrapper (attempts : List Attempt) : List Int :=
  clientLoop Second attempts

/-! ## Arithmetic of the ID base -/

theorem shl32_of_lt (x : Nat) (h : x < 256) : shl32 x = x * 2 ^ 32 := by
  unfold shl32
  rw [Nat.shiftLeft_eq]
  apply Nat.mod_eq_of_lt
  omega

theorem firstDiff_lt (a b : Addr) : firstDiff a b < 256 := by
  induction a generalizing b with
  | nil => simp [firstDiff]
  | cons x xs ih =>
    cases b with
    | nil => simp [firstDiff]
    | cons y ys =>
      simp only [firstDiff]
      split
      · exact x.isLt
      · exact ih ys

theorem addrDiff_lt (a b : Addr) : addrDiff a b < 256 := by
  unfold addrDiff
  split
  · decide
  · split
    · exact (b.get _).isLt
    · exact firstDiff_lt a b

theorem firstDiff_swap_ne (a b : Addr) (hlen : a.length = b.length) (hab : a ≠ b) :
    firstDiff a b ≠ firstDiff b a := by
  induction a generalizing b with
  | nil =>
    cases b with
    | nil => exact absurd rfl hab
    | cons y ys => simp at hlen
  | cons x xs ih =>
    cases b with
    | nil => simp at hlen
    | cons y ys =>
      simp only [List.length_cons, Nat.add_right_cancel_iff] at hlen
      by_cases hxy : x = y
      · subst hxy
        have hne : xs ≠ ys := fun h => hab (by rw [h])
        simpa [firstDiff] using ih ys hlen hne
      · have hyx : y ≠ x := fun h => hxy h.symm
        simp only [firstDiff, hxy, hyx, ne_eq, not_false_eq_true, if_true]
        exact fun h => hxy (Fin.ext h)

theorem addrDiff_swap_ne (a b : Addr) (hab : a ≠ b)
    (ha0 : ∀ x ∈ a, x ≠ 0) (hb0 : ∀ x ∈ b, x ≠ 0) : addrDiff a b ≠ addrDiff b a := by
  have nz : ∀ (l : Addr) (i : Fin l.length), (∀ x ∈ l, x ≠ 0) → (l.get i).val ≠ 0 := by
    intro l i hl h
    exact hl (l.get i) (List.get_mem l i.1 i.2) (Fin.ext h)
  unfold addrDiff
  rcases Nat.lt_trichotomy a.length b.length with h | h | h
  · have h1 : ¬ a.length > b.length := by omega
    have h2 : b.length > a.length := h
    simp only [h1, h2, h, if_true, if_false, dite_true]
    exact nz b _ hb0
  · have h1 : ¬ a.length > b.length := by omega
    have h2 : ¬ a.length < b.length := by omega
    have h3 : ¬ b.length > a.length := by omega
    have h4 : ¬ b.length < a.length := by omega
    simp only [h1, h2, h3, h4, if_false, dite_false]
    exact firstDiff_swap_ne a b h hab
  · have h1 : a.length > b.length := h
    have h2 : ¬ b.length > a.length := by omega
    simp only [h1, h2, h, if_true, if_false, dite_true]
    exact fun e => nz a _ ha0 e.symm

/-- C1: for distinct, non-empty address strings without zero byte, the ID base
that `NewTunLoop` derives with local address `a` and remote address `b` differs
from the one it derives with local address `b` and remote address `a`. -/
theorem NewTunLoop_idBase_differs (a b : Addr)
    (streamA streamB : List FromConn) (routerA routerB : List RouterItem) (uidA uidB : Nat)
    (hab : a ≠ b) (_ha : a ≠ []) (_hb : b ≠ [])
    (ha0 : ∀ x ∈ a, x ≠ 0) (hb0 : ∀ x ∈ b, x ≠ 0) :
    (NewTunLoop a b streamA routerA uidA).diff ≠ (NewTunLoop b a streamB routerB uidB).diff := by
  simp only [NewTunLoop]
  rw [shl32_of_lt _ (addrDiff_lt a b), shl32_of_lt _ (addrDiff_lt b a)]
  intro h
  exact addrDiff_swap_ne a b hab ha0 hb0 (Nat.eq_of_mul_eq_mul_right (by decide) h)

/-- The two peers of a link between `127.0.0.1:8` and `127.0.0.1:9`. -/
theorem NewTunLoop_idBase_differs_witness :
    (NewTunLoop [49, 50, 55, 46, 48, 46, 48, 46, 49, 58, 56]
        [49, 50, 55, 46, 48, 46, 48, 46, 49, 58, 57] [] [] 1).diff
      ≠ (NewTunLoop [49, 50, 55, 46, 48, 46, 48, 46, 49, 58, 57]
        [49, 50, 55, 46, 48, 46, 48, 46, 49, 58, 56] [] [] 2).diff :=
  NewTunLoop_idBase_differs _ _ [] [] [] [] 1 2 (by decide) (by decide) (by decide)
    (by simp) (by simp)

/-! ## Allocation of stream IDs -/

theorem land_mask32 (x : Nat) : x &&& 0xFFFFFFFF = x % 2 ^ 32 :=
  Nat.and_pow_two_sub_one_eq_mod x 32

/-- One allocation, for a counter `c` steps above a base `b * 2^32`. -/
theorem allocID_step (t : TunLoop) (b c : Nat) (hb : b < 256) (hc : c ≤ 0xFFFFFFF)
    (hd : t.diff = b * 2 ^ 32) (hid : t.id = t.diff + c) :
    allocID t =
      if c < 0xFFFFFFF then ({ t with id := t.diff + c + 1 }, t.diff + c + 1)
      else ({ t with id := t.diff + 1 }, t.diff + 1) := by
  have e1 : AddUint64 t.id 1 = t.diff + c + 1 := by
    unfold AddUint64
    rw [hid, hd]
    apply Nat.mod_eq_of_lt
    omega
  have e2 : AddUint64 t.diff 1 = t.diff + 1 := by
    unfold AddUint64
    rw [hd]
    apply Nat.mod_eq_of_lt
    omega
  have e3 : (t.diff + c + 1) % 2 ^ 32 = c + 1 := by
    rw [hd]
    omega
  have e4 : t.diff + c + 1 ≠ 0 := by omega
  unfold allocID
  simp only [e1, e2, e4, if_false, land_mask32, e3]
  by_cases h : c < 0xFFFFFFF
  · have h5 : ¬ (c + 1 > 0xFFFFFFF) := by omega
    simp only [h5, h, if_true, if_false]
  · have h5 : c + 1 > 0xFFFFFFF := by omega
    simp only [h5, h, if_true, if_false]

theorem Connect_id (t : TunLoop) (loc : Location) (ok : Bool) :
    (Connect t loc ok).1.id = (allocID t).1.id := by
  unfold Connect
  cases ok <;> simp

theorem Connect_diff (t : TunLoop) (loc : Location) (ok : Bool) :
    (Connect t loc ok).1.diff = (allocID t).1.diff := by
  unfold Connect
  cases ok <;> simp

theorem connectIDs_from (calls : List (Location × Bool)) (t : TunLoop) (b c : Nat)
    (hb : b < 256) (hc : c ≤ 0xFFFFFFF) (hd : t.diff = b * 2 ^ 32) (hid : t.id = t.diff + c) :
    connectIDs t calls =
      (List.range calls.length).map (fun k => t.diff + 1 + (c + k) % 0xFFFFFFF) := by
  induction calls generalizing t c with
  | nil => simp [connectIDs]
  | cons call rest ih =>
    obtain ⟨loc, ok⟩ := call
    have hstep := allocID_step t b c hb hc hd hid
    simp only [connectIDs, List.length_cons, List.range_succ_eq_map, List.map_cons,
      List.map_map]
    by_cases h : c < 0xFFFFFFF
    · rw [if_pos h] at hstep
      have h1 : (Connect t loc ok).1.diff = t.diff := by rw [Connect_diff, hstep]
      have h2 : (Connect t loc ok).1.id = (Connect t loc ok).1.diff + (c + 1) := by
        rw [Connect_id, h1, hstep]
        rfl
      rw [ih _ (c + 1) (by omega) (h1.trans hd) h2, h1, hstep]
      refine congrArg₂ _ ?_ (List.map_congr_left ?_)
      · simp only [Nat.add_zero]
        rw [Nat.mod_eq_of_lt h]
        omega
      · intro k _
        simp only [Function.comp, Nat.succ_eq_add_one]
        congr 2
        omega
    · rw [if_neg h] at hstep
      have hcM : c = 0xFFFFFFF := by omega
      have h1 : (Connect t loc ok).1.diff = t.diff := by rw [Connect_diff, hstep]
      have h2 : (Connect t loc ok).1.id = (Connect t loc ok).1.diff + 1 := by
        rw [Connect_id, h1, hstep]
      rw [ih _ 1 (by omega) (h1.trans hd) h2, h1, hstep]
      refine congrArg₂ _ ?_ (List.map_congr_left ?_)
      · simp only [Nat.add_zero, hcM, Nat.mod_self]
      · intro k _
        simp only [Function.comp, Nat.succ_eq_add_one]
        congr 1
        omega

theorem base_lor_mask (b : Nat) : b * 2 ^ 32 ||| 0xFFFFFFF = b * 2 ^ 32 + 0xFFFFFFF := by
  have h := Nat.mul_add_lt_is_or (show 0xFFFFFFF < 2 ^ 32 by decide) b
  rw [Nat.mul_comm] at h
  exact h.symm

/-- C2: from a fresh tunnel loop with base `B`, the successive calls of `Connect`,
whatever the outcome of their frame writes, allocate `B + 1 + (k mod 0x0FFFFFFF)`
for `k = 0, 1, 2, ...` (the call number `n` is `k + 1`); the call made when the
counter is at `B | 0x0FFFFFFF` allocates `B + 1`; every allocated ID is
non-zero, has its high 32 bits equal to the base and its low 32 bits in
`1 .. 0x0FFFFFFF`. -/
theorem Connect_allocates (s1 s2 : Addr) (stream : List FromConn) (router : List RouterItem)
    (uid : Nat) (calls : List (Location × Bool)) :
    connectIDs (NewTunLoop s1 s2 stream router uid) calls =
        (List.range calls.length).map
          (fun k => (NewTunLoop s1 s2 stream router uid).diff + 1 + k % 0xFFFFFFF)
      ∧ (allocID { NewTunLoop s1 s2 stream router uid with
            id := (NewTunLoop s1 s2 stream router uid).diff ||| 0xFFFFFFF }).2 =
          (NewTunLoop s1 s2 stream router uid).diff + 1
      ∧ ∀ x ∈ connectIDs (NewTunLoop s1 s2 stream router uid) calls,
          x ≠ 0 ∧ x / 2 ^ 32 * 2 ^ 32 = (NewTunLoop s1 s2 stream router uid).diff
            ∧ 1 ≤ x % 2 ^ 32 ∧ x % 2 ^ 32 ≤ 0xFFFFFFF := by
  have hb := addrDiff_lt s1 s2
  have hd : (NewTunLoop s1 s2 stream router uid).diff = addrDiff s1 s2 * 2 ^ 32 := by
    simp only [NewTunLoop]
    exact shl32_of_lt _ hb
  have hid : (NewTunLoop s1 s2 stream router uid).id
      = (NewTunLoop s1 s2 stream router uid).diff + 0 := by
    simp only [NewTunLoop, Nat.add_zero]
  generalize NewTunLoop s1 s2 stream router uid = t at hd hid
  generalize addrDiff s1 s2 = b at hb hd
  have hall := connectIDs_from calls t b 0 hb (by omega) hd hid
  simp only [Nat.zero_add] at hall
  refine ⟨hall, ?_, ?_⟩
  · have hor : ({ t with id := t.diff ||| 0xFFFFFFF } : TunLoop).id
        = ({ t with id := t.diff ||| 0xFFFFFFF } : TunLoop).diff + 0xFFFFFFF := by
      simp only [hd]
      exact base_lor_mask b
    have hw := allocID_step { t with id := t.diff ||| 0xFFFFFFF } b 0xFFFFFFF hb
      (Nat.le_refl _) hd hor
    rw [hw]
    simp
  · intro x hx
    rw [hall] at hx
    obtain ⟨k, _, rfl⟩ := List.mem_map.mp hx
    have hk : k % 0xFFFFFFF < 0xFFFFFFF := Nat.mod_lt _ (by decide)
    rw [hd]
    generalize k % 0xFFFFFFF = r at hk
    omega

/-! ## Maps and the heap -/

theorem Map.lookup_delete {V : Type} (m : Map V) (x k : Nat) :
    Map.lookup (Map.delete m x) k = if k = x then none else Map.lookup m k := by
  induction m with
  | nil => simp [Map.delete, Map.lookup]
  | cons e rest ih =>
    obtain ⟨k1, v⟩ := e
    simp only [Map.delete] at ih
    by_cases h1 : k1 = x
    · subst h1
      simp only [Map.delete, List.filter, bne_self_eq_false, Map.lookup]
      rw [ih]
      by_cases h2 : k1 = k
      · subst h2
        simp
      · have h3 : ¬ k = k1 := fun h => h2 h.symm
        simp [h2, h3]
    · have hb : (k1 != x) = true := by simpa using h1
      simp only [Map.delete, List.filter, hb, Map.lookup]
      rw [ih]
      by_cases h2 : k1 = k
      · subst h2
        simp [h1]
      · simp [h2]

theorem Map.lookup_insert {V : Type} (m : Map V) (x k : Nat) (v : V) :
    Map.lookup (Map.insert m x v) k = if k = x then some v else Map.lookup m k := by
  simp only [Map.insert, Map.lookup]
  rw [Map.lookup_delete]
  by_cases h : x = k
  · subst h
    simp
  · have h3 : ¬ k = x := fun e => h e.symm
    simp [h, h3]

theorem heapUpdate_length (f : ChannelConn → ChannelConn) (h : List ChannelConn) (p : Nat) :
    (heapUpdate f h p).length = h.length := by
  induction h generalizing p with
  | nil => simp [heapUpdate]
  | cons c cs ih =>
    cases p with
    | zero => simp [heapUpdate]
    | succ p => simp [heapUpdate, ih]

theorem heapUpdate_get (f : ChannelConn → ChannelConn) (h : List ChannelConn) (p q : Nat) :
    (heapUpdate f h p)[q]? = if q = p then h[q]?.map f else h[q]? := by
  induction h generalizing p q with
  | nil => simp [heapUpdate]
  | cons c cs ih =>
    cases p with
    | zero =>
      cases q with
      | zero => simp [heapUpdate]
      | succ q => simp [heapUpdate]
    | succ p =>
      cases q with
      | zero => simp [heapUpdate]
      | succ q => simp [heapUpdate, ih]

/-! ## Inbound frames -/

/-- C5: an inbound `Connect` frame with `Id = x` that carries a `Loc` makes `Run`
deliver exactly one value on the stream channel; its `Loc` is the frame's, its
connection is bound to `x` and reads from a new, open and empty pipe, and
`demux[x]` holds that pipe. A `Connect` frame without `Loc` changes nothing:
nothing is delivered and the demux table is as it was. -/
theorem Run_connect_frame (t : TunLoop) (x : Nat) (l : Location) (data : List Byte)
    (r : Option RouterItem) (ok : Bool) (rest : List ReadResult) :
    (∃ delivered : FromConn,
        (handle t ⟨.Connect, x, some l, data, r⟩ ok).stream = t.stream ++ [delivered]
        ∧ delivered.Loc = l
        ∧ delivered.Conn.tu.id = x
        ∧ t.heap[delivered.Conn.ch]? = none
        ∧ (handle t ⟨.Connect, x, some l, data, r⟩ ok).heap[delivered.Conn.ch]?
            = some NewChannelConn
        ∧ Map.lookup (handle t ⟨.Connect, x, some l, data, r⟩ ok).ctx x
            = some delivered.Conn.ch)
      ∧ handle t ⟨.Connect, x, none, data, r⟩ ok = t
      ∧ Run t (.pkg ⟨.Connect, x, none, data, r⟩ ok :: rest) = Run t rest := by
  refine ⟨⟨⟨l, ⟨t.heap.length, ⟨x⟩⟩⟩, ?_, rfl, rfl, ?_, ?_, ?_⟩, ?_, ?_⟩
  · simp [handle]
  · simp
  · simp [handle]
  · simp [handle, Map.lookup_insert]
  · simp [handle]
  · simp [Run, handle]

/-- The `Register` case of `Run` where it drops and where it accepts as the
guard intends: a frame whose `Router` payload is missing, or whose `Domains`
slice is nil, leaves the state unchanged and `Run` goes on with the next read;
a frame whose `Domains` slice has at least one element adds one `RouterItem`
with these domains and the tunnel network of this loop. -/
theorem Run_register_frame (t : TunLoop) (x : Nat) (loc : Option Location) (data : List Byte)
    (net : Option Network) (d : String) (ds : List String) (ok : Bool)
    (rest : List ReadResult) :
    handle t ⟨.Register, x, loc, data, none⟩ ok = t
      ∧ Run t (.pkg ⟨.Register, x, loc, data, none⟩ ok :: rest) = Run t rest
      ∧ handle t ⟨.Register, x, loc, data, some ⟨none, net⟩⟩ ok = t
      ∧ Run t (.pkg ⟨.Register, x, loc, data, some ⟨none, net⟩⟩ ok :: rest) = Run t rest
      ∧ handle t ⟨.Register, x, loc, data, some ⟨some (d :: ds), net⟩⟩ ok
          = { t with router := t.router ++ [⟨some (d :: ds), some (.tun t.UniID)⟩] } := by
  simp [Run, handle, AddRouter]

/-- C6: the code at the failing input. An inbound `Register` frame whose `Domains`
slice is not nil and has length zero passes the guard of `Run`, which tests
`Domains == nil` where the registrations of `ClientWrapper` test
`len(Domains) > 0`: the frame is not dropped, and an entry without domains,
owned by this loop, is added to the empty router. -/
theorem Run_register_empty_domains_not_dropped :
    (handle (NewTunLoop [49] [50] [] [] 7) ⟨.Register, 0, none, [], some ⟨some [], none⟩⟩ true).router
      = [⟨some [], some (.tun 7)⟩]
    ∧ (NewTunLoop [49] [50] [] [] 7).router = []
    ∧ handle (NewTunLoop [49] [50] [] [] 7) ⟨.Register, 0, none, [], some ⟨some [], none⟩⟩ true
      ≠ NewTunLoop [49] [50] [] [] 7 := by
  decide

/-- C7: an inbound `Data` frame with `Id = x`. When `x` is not in the demux table
the state is unchanged. When `demux[x]` is the pipe `dst`, the bytes are
written to `dst` and every other pipe is as it was; if the write fails, `x` is
removed from the demux table and every other entry is unchanged; if the write
succeeds the demux table is unchanged. In every case `Run` goes on with the
next read. -/
theorem Run_data_frame (t : TunLoop) (x : Nat) (loc : Option Location) (data : List Byte)
    (r : Option RouterItem) (ok : Bool) (rest : List ReadResult) :
    (Map.lookup t.ctx x = none → handle t ⟨.Data, x, loc, data, r⟩ ok = t)
      ∧ (∀ dst, Map.lookup t.ctx x = some dst →
          (∀ q, (handle t ⟨.Data, x, loc, data, r⟩ ok).heap[q]? =
              if q = dst then t.heap[q]?.map (ChannelConn.Write data ok) else t.heap[q]?)
          ∧ (∀ c, ChannelConn.Write data true c = { c with written := c.written ++ [data] })
          ∧ (ok = false →
              Map.lookup (handle t ⟨.Data, x, loc, data, r⟩ ok).ctx x = none
              ∧ ∀ y, y ≠ x →
                  Map.lookup (handle t ⟨.Data, x, loc, data, r⟩ ok).ctx y = Map.lookup t.ctx y)
          ∧ (ok = true → (handle t ⟨.Data, x, loc, data, r⟩ ok).ctx = t.ctx))
      ∧ Run t (.pkg ⟨.Data, x, loc, data, r⟩ ok :: rest)
          = Run (handle t ⟨.Data, x, loc, data, r⟩ ok) rest := by
  refine ⟨?_, ?_, rfl⟩
  · intro h
    simp [handle, h]
  · intro dst h
    refine ⟨?_, ?_, ?_, ?_⟩
    · intro q
      cases ok <;> simp [handle, h, heapUpdate_get]
    · intro c
      simp [ChannelConn.Write]
    · intro hok
      subst hok
      refine ⟨?_, ?_⟩
      · simp [handle, h, Map.lookup_delete]
      · intro y hy
        simp [handle, h, Map.lookup_delete, hy]
    · intro hok
      subst hok
      simp [handle, h]

/-- C8: an inbound `Close` frame with `Id = x`. Afterwards `x` is not a key of the
demux table and every entry with another key is unchanged; the pipe that was
stored at `demux[x]` has been closed and every other pipe is as it was; when
`x` was absent the state is unchanged. -/
theorem Run_close_frame (t : TunLoop) (x : Nat) (loc : Option Location) (data : List Byte)
    (r : Option RouterItem) (ok : Bool) :
    Map.lookup (handle t ⟨.Close, x, loc, data, r⟩ ok).ctx x = none
      ∧ (∀ y, y ≠ x →
          Map.lookup (handle t ⟨.Close, x, loc, data, r⟩ ok).ctx y = Map.lookup t.ctx y)
      ∧ (∀ ch, Map.lookup t.ctx x = some ch →
          ∀ q, (handle t ⟨.Close, x, loc, data, r⟩ ok).heap[q]? =
            if q = ch then t.heap[q]?.map ChannelConn.Close else t.heap[q]?)
      ∧ (∀ c, (ChannelConn.Close c).closed = true)
      ∧ (Map.lookup t.ctx x = none → handle t ⟨.Close, x, loc, data, r⟩ ok = t) := by
  cases h : Map.lookup t.ctx x with
  | none =>
    refine ⟨?_, ?_, ?_, ?_, ?_⟩
    · simp [handle, h]
    · intro y _
      simp [handle, h]
    · intro ch hch
      simp at hch
    · intro c
      rfl
    · intro _
      simp [handle, h]
  | some ch0 =>
    refine ⟨?_, ?_, ?_, ?_, ?_⟩
    · simp [handle, h, Map.lookup_delete]
    · intro y hy
      simp [handle, h, Map.lookup_delete, hy]
    · intro ch hch q
      have e : ch0 = ch := by simpa using hch
      subst e
      simp [handle, h, heapUpdate_get]
    · intro c
      rfl
    · intro hn
      simp at hn

/-- A `Data` frame for stream 5 whose pipe write fails, after a `Connect` frame
opened stream 5: the stream is removed from the demux table. -/
theorem Run_data_frame_witness :
    Map.lookup
      (handle (handle (NewTunLoop [49] [50] [] [] 7)
          ⟨.Connect, 5, some ⟨"tcp", "h", 80⟩, [], none⟩ true)
        ⟨.Data, 5, none, [1, 2], none⟩ false).ctx 5 = none :=
  (((Run_data_frame
      (handle (NewTunLoop [49] [50] [] [] 7) ⟨.Connect, 5, some ⟨"tcp", "h", 80⟩, [], none⟩ true)
      5 none [1, 2] none false []).2.1 0 (by decide)).2.2.1 rfl).1

/-- A `Close` frame for stream 5 after a `Connect` frame opened it: pipe 0, which
was stored at `demux[5]`, is closed. -/
theorem Run_close_frame_witness :
    (handle (handle (NewTunLoop [49] [50] [] [] 7)
          ⟨.Connect, 5, some ⟨"tcp", "h", 80⟩, [], none⟩ true)
        ⟨.Close, 5, none, [], none⟩ true).heap[0]?
      = some ⟨[], true⟩ :=
  ((Run_close_frame
      (handle (NewTunLoop [49] [50] [] [] 7) ⟨.Connect, 5, some ⟨"tcp", "h", 80⟩, [], none⟩ true)
      5 none [] none true).2.2.1 0 (by decide) 0).trans (by decide)

/-! ## Termination of the read loop -/

theorem handle_UniID (t : TunLoop) (p : Package) (ok : Bool) :
    (handle t p ok).UniID = t.UniID := by
  unfold handle
  repeat' split
  all_goals rfl

theorem handleAll_UniID (frames : List (Package × Bool)) (t : TunLoop) :
    (handleAll t frames).UniID = t.UniID := by
  induction frames generalizing t with
  | nil => rfl
  | cons f rest ih =>
    obtain ⟨p, ok⟩ := f
    simp only [handleAll]
    rw [ih, handle_UniID]

/-- While no read fails, `Run` handles the frames in order and has not returned. -/
theorem Run_reads (frames : List (Package × Bool)) (t : TunLoop) :
    Run t (reads frames) = (handleAll t frames, false) := by
  induction frames generalizing t with
  | nil => rfl
  | cons f rest ih =>
    obtain ⟨p, ok⟩ := f
    simp only [reads, List.map_cons, Run, handleAll]
    exact ih _

/-- The first read error ends `Run`: the frames before it are handled, the router
is purged, and the reads after it are not looked at. -/
theorem Run_reads_err (frames : List (Package × Bool)) (t : TunLoop) (rest : List ReadResult) :
    Run t (reads frames ++ ReadResult.err :: rest) =
      ({ handleAll t frames with
          router := RemoveRouter (handleAll t frames).router t.UniID }, true) := by
  induction frames generalizing t with
  | nil => rfl
  | cons f more ih =>
    obtain ⟨p, ok⟩ := f
    simp only [reads, List.map_cons, List.cons_append, Run, handleAll]
    have h := ih (handle t p ok)
    simp only [reads, handle_UniID] at h
    exact h

theorem RemoveRouter_owner (router : List RouterItem) (ownerId : Nat) :
    ∀ it ∈ RemoveRouter router ownerId, it.OwnerID ≠ some ownerId := by
  intro it hit
  simp only [RemoveRouter, List.mem_filter] at hit
  simpa using hit.2

/-- C9: when `ReadPackage` returns an error, after any frames read before, `Run`
calls `RemoveRouter` with the loop's own `UniID`, handles no further frame
(the result does not depend on the reads after the error) and returns; the
router then holds no entry whose owner is this loop, whether it was added
by a `Register` frame or was there before; entries of other owners stay. -/
theorem Run_read_error_purges_router (t : TunLoop) (frames : List (Package × Bool))
    (rest : List ReadResult) :
    Run t (reads frames ++ ReadResult.err :: rest) =
        ({ handleAll t frames with
            router := RemoveRouter (handleAll t frames).router t.UniID }, true)
      ∧ (∀ it ∈ (Run t (reads frames ++ ReadResult.err :: rest)).1.router,
          it.OwnerID ≠ some t.UniID ∧ it.network ≠ some (.tun t.UniID))
      ∧ (∀ it ∈ (handleAll t frames).router, it.OwnerID ≠ some t.UniID →
          it ∈ (Run t (reads frames ++ ReadResult.err :: rest)).1.router) := by
  refine ⟨Run_reads_err frames t rest, ?_, ?_⟩
  · intro it hit
    rw [Run_reads_err] at hit
    have h := RemoveRouter_owner _ _ it hit
    refine ⟨h, ?_⟩
    intro hn
    apply h
    simp [RouterItem.OwnerID, hn, Network.ID]
  · intro it hit hne
    rw [Run_reads_err]
    simp only [RemoveRouter, List.mem_filter]
    exact ⟨hit, by simpa using hne⟩

/-- C10, as amended: when the loop ends on a read error, `Run` closes no pipe and
removes no stream: the pipes and the demux table are exactly what the frames
handled before the error left, so a pipe that was open and in the demux table
stays open and in the demux table. Only the router is changed. -/
theorem Run_read_error_keeps_pipes (t : TunLoop) (frames : List (Package × Bool))
    (rest : List ReadResult) :
    (Run t (reads frames ++ ReadResult.err :: rest)).2 = true
      ∧ (Run t (reads frames ++ ReadResult.err :: rest)).1.heap = (handleAll t frames).heap
      ∧ (Run t (reads frames ++ ReadResult.err :: rest)).1.ctx = (handleAll t frames).ctx
      ∧ (Run t (reads frames ++ ReadResult.err :: rest)).1.stream = (handleAll t frames).stream
      ∧ (Run t (reads frames ++ ReadResult.err :: rest)).1.sent = (handleAll t frames).sent := by
  rw [Run_reads_err]
  exact ⟨rfl, rfl, rfl, rfl, rfl⟩

/-- C10, as stated, fails: after a `Connect` frame opened stream 5 and the next
read failed, `Run` has returned, `demux[5]` still holds pipe 0 and pipe 0 is
not closed. -/
theorem Run_read_error_open_pipe_counterexample :
    (Run (NewTunLoop [49] [50] [] [] 7)
        [.pkg ⟨.Connect, 5, some ⟨"tcp", "h", 80⟩, [], none⟩ true, .err]).2 = true
      ∧ Map.lookup (Run (NewTunLoop [49] [50] [] [] 7)
          [.pkg ⟨.Connect, 5, some ⟨"tcp", "h", 80⟩, [], none⟩ true, .err]).1.ctx 5 = some 0
      ∧ ((Run (NewTunLoop [49] [50] [] [] 7)
          [.pkg ⟨.Connect, 5, some ⟨"tcp", "h", 80⟩, [], none⟩ true, .err]).1.heap[0]?).map
            ChannelConn.closed = some false := by
  decide

/-! ## Client backoff -/

theorem wrapInt64_of_range (x : Int) (h0 : 0 ≤ x) (h1 : x < 2 ^ 63) : wrapInt64 x = x := by
  unfold wrapInt64
  rw [Int.emod_eq_of_lt (by omega) (by omega)]
  omega

theorem pow_two_seconds_lt (j : Nat) (hj : j ≤ 33) : (2 : Int) ^ j * Second < 2 ^ 63 := by
  have h : (2 : Int) ^ j ≤ 2 ^ 33 := pow_le_pow_right₀ (by norm_num) hj
  have h2 : (2 : Int) ^ j * Second ≤ 2 ^ 33 * Second :=
    Int.mul_le_mul_of_nonneg_right h (by decide)
  have h3 : (2 : Int) ^ 33 * Second < 2 ^ 63 := by decide
  exact lt_of_le_of_lt h2 h3

theorem double_seconds (j : Nat) (hj : j + 1 ≤ 33) :
    wrapInt64 (2 ^ j * Second * 2) = 2 ^ (j + 1) * Second := by
  have e : (2 : Int) ^ j * Second * 2 = 2 ^ (j + 1) * Second := by
    rw [pow_succ]
    ring
  rw [e]
  apply wrapInt64_of_range
  · have : (0 : Int) < 2 ^ (j + 1) := by positivity
    have hs : (0 : Int) ≤ Second := by decide
    exact Int.mul_nonneg (le_of_lt this) hs
  · exact pow_two_seconds_lt (j + 1) hj

/-- While every attempt fails, each sleep is twice the one before. -/
theorem clientLoop_failures (attempts : List Attempt) (j : Nat)
    (hfail : ∀ a ∈ attempts, a ≠ Attempt.ranLong) (hlen : j + attempts.length ≤ 33) :
    clientLoop (2 ^ j * Second) attempts =
      (List.range attempts.length).map (fun k => 2 ^ (j + k + 1) * Second) := by
  induction attempts generalizing j with
  | nil => simp [clientLoop]
  | cons a rest ih =>
    have hrest : ∀ b ∈ rest, b ≠ Attempt.ranLong :=
      fun b hb => hfail b (List.mem_cons_of_mem _ hb)
    have ha : a ≠ Attempt.ranLong := hfail a (List.mem_cons_self _ _)
    simp only [List.length_cons] at hlen
    have hd := double_seconds j (by omega)
    have hi := ih (j + 1) hrest (by omega)
    have hshape : clientLoop (2 ^ j * Second) (a :: rest) =
        2 ^ (j + 1) * Second :: clientLoop (2 ^ (j + 1) * Second) rest := by
      cases a with
      | dialFail => simp only [clientLoop, hd]
      | ranShort => simp only [clientLoop, hd]
      | ranLong => exact absurd rfl ha
    rw [hshape, hi]
    simp only [List.length_cons, List.range_succ_eq_map, List.map_cons, List.map_map,
      Nat.add_zero]
    refine congrArg₂ _ rfl (List.map_congr_left ?_)
    intro k _
    simp only [Function.comp, Nat.succ_eq_add_one]
    congr 2
    omega

theorem clientLoop_take (attempts : List Attempt) (d : Int) (n : Nat)
    (hfail : ∀ a ∈ attempts, a ≠ Attempt.ranLong) :
    (clientLoop d attempts).take n = clientLoop d (attempts.take n) := by
  induction attempts generalizing d n with
  | nil => simp [clientLoop]
  | cons a rest ih =>
    have hrest : ∀ b ∈ rest, b ≠ Attempt.ranLong :=
      fun b hb => hfail b (List.mem_cons_of_mem _ hb)
    have ha : a ≠ Attempt.ranLong := hfail a (List.mem_cons_self _ _)
    cases n with
    | zero => simp [clientLoop]
    | succ n =>
      cases a with
      | dialFail => simp only [clientLoop, List.take_succ_cons, ih _ _ hrest]
      | ranShort => simp only [clientLoop, List.take_succ_cons, ih _ _ hrest]
      | ranLong => exact absurd rfl ha

theorem clientLoop_append_ranLong (pre : List Attempt) (d : Int) (rest : List Attempt) :
    clientLoop d (pre ++ Attempt.ranLong :: rest) = clientLoop d pre ++ clientLoop Second rest := by
  induction pre generalizing d with
  | nil => simp [clientLoop]
  | cons a more ih =>
    cases a with
    | dialFail =>
      show _ :: clientLoop _ (more ++ Attempt.ranLong :: rest) = _
      rw [ih]
      rfl
    | ranShort =>
      show _ :: clientLoop _ (more ++ Attempt.ranLong :: rest) = _
      rw [ih]
      rfl
    | ranLong =>
      show clientLoop Second (more ++ Attempt.ranLong :: rest) = _
      rw [ih]
      rfl

/-- C4, as amended: in `ClientWrapper`, while every attempt fails (a dial error, or
a link that ran less than 20 minutes), the sleeps last 2, 4, 8, ... seconds:
the `k`-th sleep lasts `2^k` seconds, for `k` up to 33, the last doubling that
fits the 64-bit nanosecond counter; and after a link that ran at least 20
minutes, the sleep that follows the next failure lasts 2 seconds. -/
theorem ClientWrapper_backoff (attempts pre rest : List Attempt) (a : Attempt)
    (hfail : ∀ b ∈ attempts, b ≠ Attempt.ranLong) (ha : a ≠ Attempt.ranLong) :
    (ClientWrapper attempts).take 33 =
        (List.range (min 33 attempts.length)).map (fun k => 2 ^ (k + 1) * Second)
      ∧ ClientWrapper (pre ++ Attempt.ranLong :: a :: rest) =
          ClientWrapper pre ++ 2 * Second :: clientLoop (2 * Second) rest := by
  constructor
  · unfold ClientWrapper
    rw [clientLoop_take _ _ _ hfail]
    have h := clientLoop_failures (attempts.take 33) 0
      (fun b hb => hfail b (List.mem_of_mem_take hb)) (by simp)
    simp only [pow_zero, one_mul, Nat.zero_add, List.length_take] at h
    exact h
  · unfold ClientWrapper
    rw [clientLoop_append_ranLong]
    have hd : wrapInt64 (Second * 2) = 2 * Second := by decide
    cases a with
    | dialFail => simp only [clientLoop, hd]
    | ranShort => simp only [clientLoop, hd]
    | ranLong => exact absurd rfl ha

/-- Three failures give sleeps of 2, 4 and 8 seconds; a failure after a long-lived
link gives a sleep of 2 seconds. -/
theorem ClientWrapper_backoff_witness :
    (ClientWrapper [.dialFail, .ranShort, .dialFail]).take 33 =
        (List.range (min 33 3)).map (fun k => 2 ^ (k + 1) * Second)
      ∧ ClientWrapper ([.dialFail] ++ Attempt.ranLong :: .dialFail :: []) =
          ClientWrapper [.dialFail] ++ 2 * Second :: clientLoop (2 * Second) [] :=
  ClientWrapper_backoff [.dialFail, .ranShort, .dialFail] [.dialFail] [] .dialFail
    (by decide) (by decide)

/-- C4, as stated, fails: the first sleep lasts 2 seconds, not 1, and the sleep
after a failure that follows a long-lived link lasts 2 seconds, not 1. -/
theorem ClientWrapper_backoff_counterexample :
    ClientWrapper [.dialFail, .dialFail, .dialFail] = [2 * Second, 4 * Second, 8 * Second]
      ∧ ClientWrapper [.dialFail, .dialFail, .dialFail] ≠ [1 * Second, 2 * Second, 4 * Second]
      ∧ ClientWrapper [.ranLong, .dialFail] = [2 * Second]
      ∧ ClientWrapper [.ranLong, .dialFail] ≠ [1 * Second] := by
  decide

/-! ## Fresh stream IDs -/

theorem handle_id (t : TunLoop) (p : Package) (ok : Bool) : (handle t p ok).id = t.id := by
  unfold handle
  repeat' split
  all_goals rfl

theorem handle_diff (t : TunLoop) (p : Package) (ok : Bool) :
    (handle t p ok).diff = t.diff := by
  unfold handle
  repeat' split
  all_goals rfl

/-- A frame adds the key `k` to the demux table only if it is a `Connect` frame
with `Id = k`. -/
theorem handle_lookup_none (t : TunLoop) (p : Package) (ok : Bool) (k : Nat)
    (hk : p.Command = PkgCommand.Connect → p.Id ≠ k) (h : Map.lookup t.ctx k = none) :
    Map.lookup (handle t p ok).ctx k = none := by
  unfold handle
  split
  · rename_i hc
    have hne : ¬ k = p.Id := fun e => hk hc e.symm
    split
    · exact h
    · simp [Map.lookup_insert, hne, h]
  · split
    · exact h
    · cases ok <;> simp [Map.lookup_delete, h]
  · split
    · exact h
    · split
      · exact h
      · exact h
  · split
    · exact h
    · simp [Map.lookup_delete, h]
  · exact h

/-- A call of `Connect` changes the demux table at most at the key it allocated. -/
theorem Connect_lookup_ne (t : TunLoop) (loc : Location) (ok : Bool) (k : Nat)
    (hk : (allocID t).2 ≠ k) :
    Map.lookup (Connect t loc ok).1.ctx k = Map.lookup (allocID t).1.ctx k := by
  have hne : ¬ k = (allocID t).2 := fun e => hk e.symm
  unfold Connect
  cases ok
  · simp
  · simp [Map.lookup_insert, hne]

/-- The invariant behind fresh IDs: the counter is `c` steps above the base, and
no key of the demux table lies above the counter inside the range
`base+1 .. base+0x0FFFFFFF`. -/
theorem exec_fresh (events : List Event) (t : TunLoop) (b c : Nat) (hb : b < 256)
    (hd : t.diff = b * 2 ^ 32) (hid : t.id = t.diff + c)
    (hkeys : ∀ k, t.id < k → k ≤ t.diff + 0xFFFFFFF → Map.lookup t.ctx k = none)
    (hforeign : ∀ e ∈ events, e.foreign t.diff = true)
    (hcount : c + connectCount events < 0xFFFFFFF) :
    (exec t events).diff = t.diff
      ∧ (exec t events).id = t.diff + (c + connectCount events)
      ∧ ∀ k, (exec t events).id < k → k ≤ t.diff + 0xFFFFFFF →
          Map.lookup (exec t events).ctx k = none := by
  induction events generalizing t c with
  | nil => exact ⟨rfl, by simpa [exec, connectCount] using hid, by simpa [exec] using hkeys⟩
  | cons e rest ih =>
    have hrest : ∀ e1 ∈ rest, e1.foreign t.diff = true :=
      fun e1 h1 => hforeign e1 (List.mem_cons_of_mem _ h1)
    have he := hforeign e (List.mem_cons_self _ _)
    cases e with
    | connect loc ok =>
      simp only [connectCount] at hcount
      have hstep := allocID_step t b c hb (by omega) hd hid
      rw [if_pos (by omega)] at hstep
      have h1 : (Connect t loc ok).1.diff = t.diff := by rw [Connect_diff, hstep]
      have h2 : (Connect t loc ok).1.id = (Connect t loc ok).1.diff + (c + 1) := by
        rw [Connect_id, h1, hstep]
        rfl
      have h3 : ∀ k, (Connect t loc ok).1.id < k → k ≤ (Connect t loc ok).1.diff + 0xFFFFFFF →
          Map.lookup (Connect t loc ok).1.ctx k = none := by
        intro k hk1 hk2
        rw [h2, h1] at hk1
        rw [h1] at hk2
        rw [Connect_lookup_ne, hstep]
        · exact hkeys k (by omega) hk2
        · rw [hstep]
          show t.diff + c + 1 ≠ k
          omega
      have hi := ih (Connect t loc ok).1 (c + 1) (h1.trans hd) h2 h3
        (by rw [h1]; exact hrest) (by omega)
      simp only [exec, connectCount]
      rw [h1] at hi
      refine ⟨hi.1, ?_, hi.2.2⟩
      rw [hi.2.1]
      omega
    | frame p ok =>
      simp only [connectCount] at hcount
      have h1 := handle_diff t p ok
      have h2 : (handle t p ok).id = (handle t p ok).diff + c := by
        rw [handle_id, h1, hid]
      have h3 : ∀ k, (handle t p ok).id < k → k ≤ (handle t p ok).diff + 0xFFFFFFF →
          Map.lookup (handle t p ok).ctx k = none := by
        intro k hk1 hk2
        rw [handle_id] at hk1
        rw [h1] at hk2
        apply handle_lookup_none _ _ _ _ _ (hkeys k hk1 hk2)
        intro hc hpk
        simp only [Event.foreign, hc, beq_self_eq_true, Bool.not_true, Bool.false_or,
          Bool.or_eq_true, decide_eq_true_eq] at he
        omega
      have hi := ih (handle t p ok) c (h1.trans hd) h2 h3
        (by rw [h1]; exact hrest) hcount
      simp only [exec, connectCount]
      rw [h1] at hi
      exact hi

/-- C3, as amended: in every state reached from a fresh tunnel loop by `Connect`
calls and inbound frames, as long as fewer than `0x0FFFFFFF` calls of
`Connect` were made (the counter has not wrapped) and no inbound `Connect`
frame carried an `Id` in the range `base+1 .. base+0x0FFFFFFF` this loop
allocates from, the stream ID that `Connect` allocates next is not a key of
the demux table. -/
theorem Connect_id_fresh (s1 s2 : Addr) (stream : List FromConn) (router : List RouterItem)
    (uid : Nat) (events : List Event)
    (hforeign : ∀ e ∈ events, e.foreign (NewTunLoop s1 s2 stream router uid).diff = true)
    (hcount : connectCount events < 0xFFFFFFF) :
    Map.lookup (exec (NewTunLoop s1 s2 stream router uid) events).ctx
      (allocID (exec (NewTunLoop s1 s2 stream router uid) events)).2 = none := by
  have hb := addrDiff_lt s1 s2
  have hd : (NewTunLoop s1 s2 stream router uid).diff = addrDiff s1 s2 * 2 ^ 32 := by
    simp only [NewTunLoop]
    exact shl32_of_lt _ hb
  have hid : (NewTunLoop s1 s2 stream router uid).id
      = (NewTunLoop s1 s2 stream router uid).diff + 0 := by
    simp only [NewTunLoop, Nat.add_zero]
  have hkeys : ∀ k, (NewTunLoop s1 s2 stream router uid).id < k →
      k ≤ (NewTunLoop s1 s2 stream router uid).diff + 0xFFFFFFF →
      Map.lookup (NewTunLoop s1 s2 stream router uid).ctx k = none := by
    intro k _ _
    simp [NewTunLoop, Map.lookup]
  generalize NewTunLoop s1 s2 stream router uid = t at hd hid hkeys hforeign
  generalize addrDiff s1 s2 = b at hb hd
  obtain ⟨e1, e2, e3⟩ := exec_fresh events t b 0 hb hd hid hkeys hforeign (by omega)
  have hstep := allocID_step (exec t events) b (0 + connectCount events) hb (by omega)
    (e1.trans hd) (by rw [e2, e1])
  rw [if_pos (by omega)] at hstep
  rw [hstep]
  apply e3
  · rw [e2]
    show _ < (exec t events).diff + _ + 1
    rw [e1]
    omega
  · show (exec t events).diff + _ + 1 ≤ _
    rw [e1]
    omega

/-- Two `Connect` calls, a `Data` frame and an inbound `Connect` frame with a small
`Id`: the third ID to be allocated is not in the demux table. -/
theorem Connect_id_fresh_witness :
    Map.lookup (exec (NewTunLoop [49] [50] [] [] 7)
        [.connect ⟨"tcp", "h", 80⟩ true, .frame ⟨.Connect, 5, some ⟨"tcp", "g", 80⟩, [], none⟩ true,
          .connect ⟨"tcp", "h", 81⟩ false, .frame ⟨.Data, 5, none, [1], none⟩ true]).ctx
      (allocID (exec (NewTunLoop [49] [50] [] [] 7)
        [.connect ⟨"tcp", "h", 80⟩ true, .frame ⟨.Connect, 5, some ⟨"tcp", "g", 80⟩, [], none⟩ true,
          .connect ⟨"tcp", "h", 81⟩ false, .frame ⟨.Data, 5, none, [1], none⟩ true])).2 = none :=
  Connect_id_fresh [49] [50] [] [] 7 _ (by decide) (by decide)

theorem exec_connect_cons (t : TunLoop) (loc : Location) (ok : Bool) (rest : List Event) :
    exec t (Event.connect loc ok :: rest) = exec (Connect t loc ok).1 rest := rfl

/-- Successful calls of `Connect` that do not wrap the counter leave the first
stream, `base + 1`, in the demux table. -/
theorem exec_connects_keep (n : Nat) (loc : Location) (t : TunLoop) (b c v : Nat)
    (hb : b < 256) (hd : t.diff = b * 2 ^ 32) (hid : t.id = t.diff + c) (hc : 1 ≤ c)
    (hn : c + n ≤ 0xFFFFFFF) (hv : Map.lookup t.ctx (t.diff + 1) = some v) :
    (exec t (List.replicate n (Event.connect loc true))).diff = t.diff
      ∧ (exec t (List.replicate n (Event.connect loc true))).id = t.diff + (c + n)
      ∧ Map.lookup (exec t (List.replicate n (Event.connect loc true))).ctx (t.diff + 1)
          = some v := by
  induction n generalizing t c with
  | zero => exact ⟨rfl, by simpa [exec] using hid, by simpa [exec] using hv⟩
  | succ n ih =>
    have hstep := allocID_step t b c hb (by omega) hd hid
    rw [if_pos (by omega)] at hstep
    have h1 : (Connect t loc true).1.diff = t.diff := by rw [Connect_diff, hstep]
    have h2 : (Connect t loc true).1.id = (Connect t loc true).1.diff + (c + 1) := by
      rw [Connect_id, h1, hstep]
      rfl
    have h3 : Map.lookup (Connect t loc true).1.ctx ((Connect t loc true).1.diff + 1)
        = some v := by
      rw [h1, Connect_lookup_ne, hstep]
      · exact hv
      · rw [hstep]
        show t.diff + c + 1 ≠ t.diff + 1
        omega
    have hi := ih (Connect t loc true).1 (c + 1) (h1.trans hd) h2 (by omega) (by omega) h3
    simp only [List.replicate_succ, exec]
    rw [h1] at hi
    refine ⟨hi.1, ?_, hi.2.2⟩
    rw [hi.2.1]
    omega

/-- After `n = 0x0FFFFFFF` successful calls of `Connect` on a loop whose counter is
at its base and whose heap is empty, the next call allocates the ID of the
first stream, which is still in the demux table with pipe 0. -/
theorem exec_connects_wrap (n : Nat) (hn : n = 0xFFFFFFF) (loc : Location) (t : TunLoop)
    (b : Nat) (hb : b < 256) (hd : t.diff = b * 2 ^ 32) (hid : t.id = t.diff)
    (hheap : t.heap = []) :
    Map.lookup (exec t (List.replicate n (Event.connect loc true))).ctx
      (allocID (exec t (List.replicate n (Event.connect loc true)))).2 = some 0 := by
  cases n with
  | zero => omega
  | succ m =>
    rw [List.replicate_succ, exec_connect_cons]
    have hstep := allocID_step t b 0 hb (by omega) hd (by rw [hid]; rfl)
    rw [if_pos (by omega)] at hstep
    have h1 : (Connect t loc true).1.diff = t.diff := by rw [Connect_diff, hstep]
    have h2 : (Connect t loc true).1.id = (Connect t loc true).1.diff + 1 := by
      rw [Connect_id, h1, hstep]
    have h3 : Map.lookup (Connect t loc true).1.ctx ((Connect t loc true).1.diff + 1)
        = some 0 := by
      rw [h1]
      unfold Connect
      rw [hstep]
      simp [Map.lookup_insert, hheap]
    obtain ⟨e1, e2, e3⟩ := exec_connects_keep m loc (Connect t loc true).1 b 1 0 hb
      (h1.trans hd) h2 (Nat.le_refl 1) (by omega) h3
    generalize exec (Connect t loc true).1 (List.replicate m (Event.connect loc true)) = u
      at e1 e2 e3
    have hu := allocID_step u b 0xFFFFFFF hb (Nat.le_refl _) (e1.trans (h1.trans hd))
      (by rw [e2, e1]; omega)
    rw [if_neg (by omega)] at hu
    rw [hu]
    simpa [e1] using e3

/-- C3, as stated, fails, in two ways. After an inbound `Connect` frame with
`Id = base + 1`, the first call of `Connect` allocates `base + 1`, which is a
key of the demux table, and replaces the pipe stored there (pipe 0) by its
own (pipe 1). And after `0x0FFFFFFF` successful calls of `Connect`, none of
whose streams was closed, the counter wraps: the next call allocates
`base + 1`, the key of the first stream, which is still in the table. -/
theorem Connect_id_collides_counterexample :
    ((NewTunLoop [49] [50] [] [] 7).diff = 49 * 2 ^ 32
      ∧ (allocID (exec (NewTunLoop [49] [50] [] [] 7)
          [.frame ⟨.Connect, 49 * 2 ^ 32 + 1, some ⟨"tcp", "h", 80⟩, [], none⟩ true])).2
          = 49 * 2 ^ 32 + 1
      ∧ Map.lookup (exec (NewTunLoop [49] [50] [] [] 7)
          [.frame ⟨.Connect, 49 * 2 ^ 32 + 1, some ⟨"tcp", "h", 80⟩, [], none⟩ true]).ctx
          (49 * 2 ^ 32 + 1) = some 0
      ∧ Map.lookup (exec (NewTunLoop [49] [50] [] [] 7)
          [.frame ⟨.Connect, 49 * 2 ^ 32 + 1, some ⟨"tcp", "h", 80⟩, [], none⟩ true,
            .connect ⟨"tcp", "g", 80⟩ true]).ctx
          (49 * 2 ^ 32 + 1) = some 1)
    ∧ Map.lookup
        (exec (NewTunLoop [49] [50] [] [] 7)
          (List.replicate 0xFFFFFFF (Event.connect ⟨"tcp", "h", 80⟩ true))).ctx
        (allocID (exec (NewTunLoop [49] [50] [] [] 7)
          (List.replicate 0xFFFFFFF (Event.connect ⟨"tcp", "h", 80⟩ true)))).2 = some 0 :=
  ⟨by decide,
    exec_connects_wrap 0xFFFFFFF rfl ⟨"tcp", "h", 80⟩ (NewTunLoop [49] [50] [] [] 7) 49
      (by decide) (by decide) rfl rfl⟩

/-- The first three calls of `Connect` on a fresh loop with base `49 * 2^32`. -/
theorem Connect_allocates_witness :
    connectIDs (NewTunLoop [49] [50] [] [] 7)
        [(⟨"tcp", "h", 80⟩, true), (⟨"tcp", "g", 80⟩, false), (⟨"tcp", "h", 81⟩, true)]
      = [49 * 2 ^ 32 + 1, 49 * 2 ^ 32 + 2, 49 * 2 ^ 32 + 3] :=
  (Connect_allocates [49] [50] [] [] 7
    [(⟨"tcp", "h", 80⟩, true), (⟨"tcp", "g", 80⟩, false), (⟨"tcp", "h", 81⟩, true)]).1.trans
    (by decide)

/-- The backoff leaves the 64-bit range at the 34th failure in a row: doubling
the 33rd sleep, of `2^33` seconds, gives a negative argument for `Sleep`. -/
theorem ClientWrapper_overflow :
    clientLoop (2 ^ 33 * Second) [Attempt.dialFail] = [-1266874889709551616] := by
  decide

end Engine
